import Mathlib

/-!
Shallow embedding of the furca fork-synchronization engine and proofs about it.

The remote GitHub API is modelled by explicit function parameters: the
comparison endpoint, the merge-upstream endpoint and the repository-info
endpoint become fallible Lean functions, and each embedded operation also
returns the list of remote calls it issued, so that claims about which calls
are made (and how often) can be stated and proved.  Machine integers of the
Go source become Int, Go `(value, error)` returns become `Except String`.
-/

namespace Furca

/-- Embedding of the `Repository` struct (src/github/client.go): a forked
repository together with its upstream parent coordinates. -/
structure Repository where
  owner : String
  name : String
  fullName : String
  parentOwner : String
  parentName : String
deriving Repr, DecidableEq

/-- The fields of the remote commit comparison that the code reads
(the behind count via GetBehindBy, next to the ahead count the comments
mention). -/
structure Comparison where
  aheadBy : Int
  behindBy : Int
deriving Repr, DecidableEq

/-- A call issued to the remote repository gateway, as far as the claims
need: a ref comparison (base, head) or a merge-upstream mutation on a
branch. -/
inductive GatewayCall where
  | compare (base head : String)
  | mergeUpstream (branch : String)
deriving Repr, DecidableEq

/-- Embedding of `Client.IsRepositoryBehindUpstream`
(src/github/client.go, lines 129-157).  The remote CompareCommits endpoint
is the parameter `cmp`, mapping the (base, head) ref pair to a comparison or
an error.  The Go result `(bool, int, error)` becomes
`Except String (Bool × Int)`; the second component records the comparison
calls issued, in order. -/
def IsRepositoryBehindUpstream (cmp : String → String → Except String Comparison)
    (repo : Repository) : Except String (Bool × Int) × List GatewayCall :=
  let mainBase := repo.parentOwner ++ ":" ++ "main"
  match cmp mainBase "main" with
  | .ok comparison =>
      (.ok (decide (0 < comparison.behindBy), comparison.behindBy),
       [.compare mainBase "main"])
  | .error _ =>
      -- Try with master branch if main fails
      let masterBase := repo.parentOwner ++ ":" ++ "master"
      match cmp masterBase "master" with
      | .ok comparison =>
          (.ok (decide (0 < comparison.behindBy), comparison.behindBy),
           [.compare mainBase "main", .compare masterBase "master"])
      | .error e =>
          (.error ("failed to compare commits: " ++ e),
           [.compare mainBase "main", .compare masterBase "master"])

/-- The repository metadata the sync audit path reads: the default branch
name returned by the repository-info endpoint. -/
structure RepoInfo where
  defaultBranch : String
deriving Repr, DecidableEq

/-- Embedding of `Client.syncBranch` (src/github/client.go, lines 202-223):
one merge-upstream request for the given branch, with the failure of the
remote call wrapped.  The remote merge-upstream endpoint is the parameter
`merge`. -/
def syncBranch (merge : String → Except String Unit) (branch : String) :
    Except String Unit :=
  match merge branch with
  | .ok _ => .ok ()
  | .error e => .error ("failed to execute request: " ++ e)

/-- Embedding of `Client.SyncRepositoryWithUpstream`
(src/github/client.go, lines 161-198).  The two repository-info fetches are
`infoBefore` (taken before the merge, for the before-audit snapshot) and
`infoAfter` (taken after a successful merge); `merge` is the remote
merge-upstream endpoint.  The second component lists the merge-upstream
calls issued, in order. -/
def SyncRepositoryWithUpstream (infoBefore infoAfter : Except String RepoInfo)
    (merge : String → Except String Unit) : Except String Unit × List GatewayCall :=
  -- Get current commit SHA before sync for audit logging
  match infoBefore with
  | .error e => (.error ("failed to get repository info: " ++ e), [])
  | .ok _before =>
      -- Try with main branch first
      match syncBranch merge "main" with
      | .ok _ =>
          -- Get updated commit SHA after sync for audit logging;
          -- log but do not fail if it cannot be fetched
          (match infoAfter with
           | .error _ => .ok ()
           | .ok _after => .ok (), [.mergeUpstream "main"])
      | .error _ =>
          -- Try with master branch if main fails
          match syncBranch merge "master" with
          | .ok _ =>
              (match infoAfter with
               | .error _ => .ok ()
               | .ok _after => .ok (), [.mergeUpstream "main", .mergeUpstream "master"])
          | .error e =>
              (.error ("failed to sync repository: " ++ e),
               [.mergeUpstream "main", .mergeUpstream "master"])

/-- The retry loop shared by `checkRepositoryWithRetries` and
`syncRepositoryWithRetries` (src/unnamed/part_002, lines 240-254 and
263-277): `for attempt := 0; attempt <= maxRetries; attempt++ { ... }`.
`op k` is the outcome of the attempt with loop index `k`; `fuel` is the
number of loop iterations still allowed; `last` is the value the function
returns when the loop exits without a success (the zero value of the Go
error variable before the first iteration, the last failure afterwards).
Returns the result together with the number of attempts actually made. -/
def retryLoop {A : Type} (op : Nat → Except String A) :
    Nat → Nat → Except String A → Except String A × Nat
  | _, 0, last => (last, 0)
  | attempt, fuel + 1, _ =>
      match op attempt with
      | .ok a => (.ok a, 1)
      | .error e =>
          let rest := retryLoop op (attempt + 1) fuel (.error e)
          (rest.1, rest.2 + 1)

/-- Number of iterations the Go loop
`for attempt := 0; attempt <= maxRetries; attempt++` performs when no
attempt succeeds: zero when `maxRetries` is negative, `maxRetries + 1`
otherwise. -/
def retryFuel (maxRetries : Int) : Nat :=
  if maxRetries < 0 then 0 else maxRetries.toNat + 1

/-- Embedding of `checkRepositoryWithRetries` (src/unnamed/part_002, lines
235-257).  The Go function declares `var behind bool; var behindBy int;
var err error` and returns `false, 0, err` when the loop finds no success,
so the value returned when the loop body never runs is the success
`(false, 0)` (a nil error with zero values). -/
def checkRepositoryWithRetries (check : Nat → Except String (Bool × Int))
    (maxRetries : Int) : Except String (Bool × Int) × Nat :=
  retryLoop check 0 (retryFuel maxRetries) (.ok (false, 0))

/-- Embedding of `syncRepositoryWithRetries` (src/unnamed/part_002, lines
260-280).  The Go function declares `var err error` and returns `err` after
the loop, so the value returned when the loop body never runs is the
success `()` (a nil error). -/
def syncRepositoryWithRetries (syncOp : Nat → Except String Unit)
    (maxRetries : Int) : Except String Unit × Nat :=
  retryLoop syncOp 0 (retryFuel maxRetries) (.ok ())

/-- Embedding of the `SyncResult` struct (src/unnamed/part_002, lines 19-24):
the value a per-fork worker sends on the result channel.  `status` carries
the exact string literals the code uses. -/
structure SyncResult where
  name : String
  status : String
  errorMsg : String
  behind : Int
deriving Repr, DecidableEq

/-- Embedding of the `SyncSummary` struct (src/unnamed/part_002, lines
27-32).  The Go `map[string]string` of errors becomes an association list
keyed by repository name, with map-update semantics (`mapInsert`).  The
timestamp string produced by formatting the wall clock becomes an abstract
clock instant. -/
structure SyncSummary where
  synced : List String
  upToDate : List String
  errors : List (String × String)
  timestamp : Nat
deriving Repr, DecidableEq

/-- Update of a Go string-keyed map: replaces the value when the key is
present, appends the binding otherwise. -/
def mapInsert (m : List (String × String)) (k v : String) :
    List (String × String) :=
  if m.any (fun p => p.1 == k) then
    m.map (fun p => if p.1 == k then (k, v) else p)
  else
    m ++ [(k, v)]

/-- Embedding of the body of one per-fork goroutine of `syncCmd`
(src/unnamed/part_002, lines 107-169).  `check k` is the outcome the drift
check would produce on attempt `k`; `syncOp k` the outcome the merge would
produce on attempt `k`.  Returns the `SyncResult` the worker sends on the
channel, together with the number of times the sync operation was invoked. -/
def processFork (dryRun : Bool) (check : Nat → Except String (Bool × Int))
    (syncOp : Nat → Except String Unit) (maxRetries : Int)
    (fork : Repository) : SyncResult × Nat :=
  -- Check if fork is behind upstream with retries
  match (checkRepositoryWithRetries check maxRetries).1 with
  | .error e =>
      ({ name := fork.name, status := "error",
         errorMsg := "failed to compare commits: " ++ e, behind := 0 }, 0)
  | .ok (behind, behindBy) =>
      if !behind then
        -- both arms of the dry-run conditional send the same result
        (if dryRun then
          ({ name := fork.name, status := "up_to_date", errorMsg := "", behind := 0 }, 0)
        else
          ({ name := fork.name, status := "up_to_date", errorMsg := "", behind := 0 }, 0))
      else if dryRun then
        -- If dry run, just report what would happen
        ({ name := fork.name, status := "would_sync", errorMsg := "", behind := behindBy }, 0)
      else
        -- Sync fork with upstream with retries
        match syncRepositoryWithRetries syncOp maxRetries with
        | (.error e, n) =>
            ({ name := fork.name, status := "error",
               errorMsg := "failed to sync repository: " ++ e, behind := 0 }, n)
        | (.ok _, n) =>
            ({ name := fork.name, status := "synced", errorMsg := "", behind := behindBy }, n)

/-- The results the workers of one orchestration pass send, in fork order
(one per fork: every branch of the worker body sends exactly one result).
`check` and `syncOp` give each fork its own remote behaviour, so faults can
be injected per fork. -/
def syncOutcomes (dryRun : Bool) (check : Repository → Nat → Except String (Bool × Int))
    (syncOp : Repository → Nat → Except String Unit) (maxRetries : Int)
    (forks : List Repository) : List SyncResult :=
  forks.map fun f => (processFork dryRun (check f) (syncOp f) maxRetries f).1

/-- The summary as initialized at the start of the pass
(src/unnamed/part_002, lines 98-103): empty partitions, timestamp taken
from the clock at creation time. -/
def summaryInit (t : Nat) : SyncSummary :=
  { synced := [], upToDate := [], errors := [], timestamp := t }

/-- Embedding of one iteration of the result-draining switch of `syncCmd`
(src/unnamed/part_002, lines 179-206): route one result into its summary
partition. -/
def addResult (s : SyncSummary) (r : SyncResult) : SyncSummary :=
  if r.status == "up_to_date" then
    { s with upToDate := s.upToDate ++ [r.name] }
  else if r.status == "would_sync" then
    { s with synced := s.synced ++ [r.name] }
  else if r.status == "synced" then
    { s with synced := s.synced ++ [r.name] }
  else if r.status == "error" then
    { s with errors := mapInsert s.errors r.name r.errorMsg }
  else
    s

/-- Embedding of the drain loop `for result := range results` of `syncCmd`:
fold the arriving results into the summary.  `rs` is the arrival order on
the channel, an arbitrary permutation of the per-fork results. -/
def drainResults (s : SyncSummary) (rs : List SyncResult) : SyncSummary :=
  rs.foldl addResult s

/-- One orchestration pass of `syncCmd` against an abstract clock: the
summary is created, and its timestamp stamped, at instant `t0`
(src/unnamed/part_002, lines 98-103, before any worker is launched); the
result arriving in position `i` of the drain is emitted at the strictly
later instant `t0 + i + 1`; the drain then folds the results into the
summary.  Returns the final summary and the timestamped arrival trace. -/
def syncPassTrace (t0 : Nat) (arrivals : List SyncResult) :
    SyncSummary × List (Nat × SyncResult) :=
  (drainResults (summaryInit t0) arrivals,
   arrivals.enum.map fun p => (t0 + p.1 + 1, p.2))

/-- Embedding of the `repoStatus` struct local to `ciCheckCmd`
(src/cmd/ci_check.go, lines 113-118). -/
structure RepoStatus where
  name : String
  isBehind : Bool
  behindBy : Int
  error : String
deriving Repr, DecidableEq

/-- Embedding of the `CICheckResult` struct (src/cmd/ci_check.go, lines
20-30), with the error map as an association list and the timestamp as an
abstract clock instant. -/
structure CICheckResult where
  behindRepos : List String
  upToDateRepos : List String
  errors : List (String × String)
  timestamp : Nat
  totalBehind : Nat
  totalUpToDate : Nat
  totalErrors : Nat
  totalRepos : Nat
  outdatedStatus : Bool
deriving Repr, DecidableEq

/-- Embedding of the body of one per-fork goroutine of `ciCheckCmd`
(src/cmd/ci_check.go, lines 123-143): one drift check, no retries, no sync.
Returns the status sent on the channel and the gateway calls issued. -/
def ciProcessFork (cmp : String → String → Except String Comparison)
    (fork : Repository) : RepoStatus × List GatewayCall :=
  match IsRepositoryBehindUpstream cmp fork with
  | (.error e, calls) =>
      ({ name := fork.name, isBehind := false, behindBy := 0,
         error := "failed to compare commits: " ++ e }, calls)
  | (.ok (behind, behindBy), calls) =>
      ({ name := fork.name, isBehind := behind, behindBy := behindBy,
         error := "" }, calls)

/-- The `ciResult` value as initialized before the drain loop
(src/cmd/ci_check.go, lines 153-158). -/
def ciResultInit (t : Nat) : CICheckResult :=
  { behindRepos := [], upToDateRepos := [], errors := [], timestamp := t,
    totalBehind := 0, totalUpToDate := 0, totalErrors := 0, totalRepos := 0,
    outdatedStatus := false }

/-- Embedding of one iteration of the drain loop of `ciCheckCmd`
(src/cmd/ci_check.go, lines 160-177). -/
def ciAddResult (c : CICheckResult) (r : RepoStatus) : CICheckResult :=
  if r.error != "" then
    { c with errors := mapInsert c.errors r.name r.error }
  else if r.isBehind then
    { c with behindRepos := c.behindRepos ++ [r.name] }
  else
    { c with upToDateRepos := c.upToDateRepos ++ [r.name] }

/-- Embedding of the count derivation after the drain
(src/cmd/ci_check.go, lines 179-184). -/
def ciFinalize (c : CICheckResult) : CICheckResult :=
  let tb := c.behindRepos.length
  let tu := c.upToDateRepos.length
  let te := c.errors.length
  { c with totalBehind := tb, totalUpToDate := tu, totalErrors := te,
           totalRepos := tb + tu + te, outdatedStatus := decide (0 < tb) }

/-- Embedding of the check pass of `ciCheckCmd` from fork processing
onward (src/cmd/ci_check.go, lines 121-213): run the per-fork drift checks,
drain the statuses in arrival order `order` (a permutation of fork order),
derive the counts, and exit non-zero exactly when `failOnOutdated` is set
and some fork is behind (lines 210-213).  Returns the final result, the
process exit code and every gateway call the pass issued. -/
def ciCheckRun (failOnOutdated : Bool)
    (cmp : Repository → String → String → Except String Comparison)
    (forks : List Repository) (order : List RepoStatus) (t : Nat) :
    CICheckResult × Nat × List GatewayCall :=
  let result := ciFinalize (order.foldl ciAddResult (ciResultInit t))
  let exitCode := if failOnOutdated && decide (0 < result.totalBehind) then 1 else 0
  (result, exitCode, (forks.map fun f => (ciProcessFork (cmp f) f).2).flatten)

/-- The statuses the workers of one ci-check pass send, in fork order. -/
def ciStatuses (cmp : Repository → String → String → Except String Comparison)
    (forks : List Repository) : List RepoStatus :=
  forks.map fun f => (ciProcessFork (cmp f) f).1

/-! Theorems about the drift detector. -/

/-- C3: for every repository, the drift check first compares
parentOwner:main against main; exactly when that call fails it makes one
further comparison, parentOwner:master against master, and returns the
master result without propagating the main failure; if both calls fail it
returns the second failure wrapped as a compare error. -/
theorem drift_branch_fallback
    (cmp : String → String → Except String Comparison) (repo : Repository) :
    (∀ c, cmp (repo.parentOwner ++ ":" ++ "main") "main" = .ok c →
        IsRepositoryBehindUpstream cmp repo =
          (.ok (decide (0 < c.behindBy), c.behindBy),
           [.compare (repo.parentOwner ++ ":" ++ "main") "main"])) ∧
    (∀ e c, cmp (repo.parentOwner ++ ":" ++ "main") "main" = .error e →
        cmp (repo.parentOwner ++ ":" ++ "master") "master" = .ok c →
        IsRepositoryBehindUpstream cmp repo =
          (.ok (decide (0 < c.behindBy), c.behindBy),
           [.compare (repo.parentOwner ++ ":" ++ "main") "main",
            .compare (repo.parentOwner ++ ":" ++ "master") "master"])) ∧
    (∀ e e2, cmp (repo.parentOwner ++ ":" ++ "main") "main" = .error e →
        cmp (repo.parentOwner ++ ":" ++ "master") "master" = .error e2 →
        IsRepositoryBehindUpstream cmp repo =
          (.error ("failed to compare commits: " ++ e2),
           [.compare (repo.parentOwner ++ ":" ++ "main") "main",
            .compare (repo.parentOwner ++ ":" ++ "master") "master"])) := by
  refine ⟨fun c h => ?_, fun e c h h2 => ?_, fun e e2 h h2 => ?_⟩
  · simp [IsRepositoryBehindUpstream, h]
  · simp [IsRepositoryBehindUpstream, h, h2]
  · simp [IsRepositoryBehindUpstream, h, h2]

/-- A repository and a comparison endpoint exercising the fallback path:
the main comparison fails, the master comparison reports 3 commits
behind. -/
def cmpFallback : String → String → Except String Comparison := fun base _ =>
  if base == "up" ++ ":" ++ "main" then .error "ref not found"
  else .ok { aheadBy := 0, behindBy := 3 }

/-- A concrete fork used by several witnesses. -/
def forkW : Repository :=
  { owner := "alice", name := "tools", fullName := "alice/tools",
    parentOwner := "up", parentName := "tools" }

/-- Witness for the fallback branch of `drift_branch_fallback` at a
concrete endpoint. -/
theorem drift_branch_fallback_witness :
    IsRepositoryBehindUpstream cmpFallback forkW =
      (.ok (true, 3),
       [.compare ("up" ++ ":" ++ "main") "main",
        .compare ("up" ++ ":" ++ "master") "master"]) :=
  (drift_branch_fallback cmpFallback forkW).2.1 "ref not found"
    { aheadBy := 0, behindBy := 3 } rfl rfl

/-- C8: for every successful drift check, the returned behind-by equals
the behind count reported by the comparison call that succeeded (the main
call, or the master call after a main failure), and the returned is-behind
flag is true iff behind-by is positive. -/
theorem drift_result_derivation
    (cmp : String → String → Except String Comparison) (repo : Repository)
    (b : Bool) (n : Int)
    (h : (IsRepositoryBehindUpstream cmp repo).1 = .ok (b, n)) :
    (b = true ↔ 0 < n) ∧
    ((∃ c, cmp (repo.parentOwner ++ ":" ++ "main") "main" = .ok c ∧ c.behindBy = n) ∨
     ((∃ e, cmp (repo.parentOwner ++ ":" ++ "main") "main" = .error e) ∧
      (∃ c, cmp (repo.parentOwner ++ ":" ++ "master") "master" = .ok c ∧ c.behindBy = n))) := by
  unfold IsRepositoryBehindUpstream at h
  rcases hmain : cmp (repo.parentOwner ++ ":" ++ "main") "main" with e | c
  · rcases hmaster : cmp (repo.parentOwner ++ ":" ++ "master") "master" with e2 | c
    · simp [hmain, hmaster] at h
    · simp only [hmain, hmaster] at h
      obtain ⟨hb, hn⟩ := by simpa using h
      subst hn
      exact ⟨by simp [← hb], Or.inr ⟨⟨e, rfl⟩, c, rfl, rfl⟩⟩
  · simp only [hmain] at h
    obtain ⟨hb, hn⟩ := by simpa using h
    subst hn
    exact ⟨by simp [← hb], Or.inl ⟨c, rfl, rfl⟩⟩

/-- Witness for `drift_result_derivation` at a concrete endpoint. -/
theorem drift_result_derivation_witness :
    (true = true ↔ (0 : Int) < 3) ∧
    ((∃ c, cmpFallback ("up" ++ ":" ++ "main") "main" = .ok c ∧ c.behindBy = 3) ∨
     ((∃ e, cmpFallback ("up" ++ ":" ++ "main") "main" = .error e) ∧
      (∃ c, cmpFallback ("up" ++ ":" ++ "master") "master" = .ok c ∧ c.behindBy = 3))) :=
  drift_result_derivation cmpFallback forkW true 3 rfl

/-! Theorems about the sync executor. -/

/-- C6: the result of `SyncRepositoryWithUpstream` does not depend on the
post-sync repository-info fetch at all; in particular, when the before
fetch and the merge succeed, the sync returns success even when the
post-sync audit fetch fails. -/
theorem sync_audit_snapshot_nonblocking
    (infoBefore : Except String RepoInfo) (merge : String → Except String Unit) :
    (∀ a1 a2 : Except String RepoInfo,
        (SyncRepositoryWithUpstream infoBefore a1 merge).1 =
        (SyncRepositoryWithUpstream infoBefore a2 merge).1) ∧
    (∀ i e, infoBefore = .ok i →
        (merge "main" = .ok () ∨ merge "master" = .ok ()) →
        (SyncRepositoryWithUpstream infoBefore (.error e) merge).1 = .ok ()) := by
  constructor
  · intro a1 a2
    unfold SyncRepositoryWithUpstream
    rcases infoBefore with e | i
    · rfl
    · rcases hm : syncBranch merge "main" with e1 | u
      · rcases hm2 : syncBranch merge "master" with e2 | u2 <;>
          rcases a1 with ea1 | ia1 <;> rcases a2 with ea2 | ia2 <;> simp [hm, hm2]
      · rcases a1 with ea1 | ia1 <;> rcases a2 with ea2 | ia2 <;> simp [hm]
  · intro i e hb hmerge
    subst hb
    unfold SyncRepositoryWithUpstream
    rcases hm : merge "main" with e1 | u
    · rcases hmerge with hok | hok
      · rw [hm] at hok; exact absurd hok (by simp)
      · simp [syncBranch, hm, hok]
    · simp [syncBranch, hm]

/-- A merge endpoint that succeeds on main, and a failing info fetch, for
the witness of the audit-snapshot claim. -/
def mergeOkW : String → Except String Unit := fun _ => .ok ()

/-- Witness for `sync_audit_snapshot_nonblocking`: concrete sync whose
post-sync fetch fails still reports success. -/
theorem sync_audit_snapshot_witness :
    (SyncRepositoryWithUpstream (.ok { defaultBranch := "main" })
        (.error "boom") mergeOkW).1 = .ok () :=
  (sync_audit_snapshot_nonblocking (.ok { defaultBranch := "main" }) mergeOkW).2
    { defaultBranch := "main" } "boom" rfl (Or.inl rfl)

/-- C10: if the pre-sync repository-info fetch fails,
`SyncRepositoryWithUpstream` returns that failure wrapped, and no
merge-upstream request is issued (the merge-call trace is empty). -/
theorem presync_audit_failure_aborts (e : String)
    (infoAfter : Except String RepoInfo) (merge : String → Except String Unit) :
    SyncRepositoryWithUpstream (.error e) infoAfter merge =
      (.error ("failed to get repository info: " ++ e), []) := rfl

/-! Theorems about the retry wrappers. -/

/-- If the operation fails on the first `k` attempts and succeeds on
attempt index `k`, and the loop has fuel for it, the loop returns that
success after exactly `k + 1` invocations. -/
lemma retryLoop_succeeds {A : Type} (op : Nat → Except String A) (a : A) :
    ∀ (k attempt fuel : Nat) (last : Except String A), k < fuel →
      (∀ i, i < k → ∃ e, op (attempt + i) = Except.error e) →
      op (attempt + k) = Except.ok a →
      retryLoop op attempt fuel last = (Except.ok a, k + 1) := by
  intro k
  induction k with
  | zero =>
      intro attempt fuel last hlt hfail hok
      match fuel, hlt with
      | fuel + 1, _ =>
        rw [Nat.add_zero] at hok
        simp [retryLoop, hok]
  | succ k ih =>
      intro attempt fuel last hlt hfail hok
      match fuel, hlt with
      | fuel + 1, hlt =>
        obtain ⟨e, he⟩ := hfail 0 (Nat.succ_pos k)
        rw [Nat.add_zero] at he
        have hrec := ih (attempt + 1) fuel (Except.error e)
          (Nat.lt_of_succ_lt_succ hlt)
          (fun i hi => by
            obtain ⟨e2, he2⟩ := hfail (i + 1) (Nat.succ_lt_succ hi)
            refine ⟨e2, ?_⟩
            have h3 : attempt + 1 + i = attempt + (i + 1) := by omega
            rw [h3]; exact he2)
          (by
            have h3 : attempt + 1 + k = attempt + (k + 1) := by omega
            rw [h3]; exact hok)
        simp [retryLoop, he, hrec]

/-- If every attempt the fuel allows fails, the loop makes exactly `fuel`
invocations and returns the outcome of the last one. -/
lemma retryLoop_all_fail {A : Type} (op : Nat → Except String A) :
    ∀ (fuel attempt : Nat) (last : Except String A), 0 < fuel →
      (∀ i, i < fuel → ∃ e, op (attempt + i) = Except.error e) →
      retryLoop op attempt fuel last = (op (attempt + fuel - 1), fuel) := by
  intro fuel
  induction fuel with
  | zero => intro attempt last hpos _; exact absurd hpos (Nat.lt_irrefl 0)
  | succ fuel ih =>
      intro attempt last _ hfail
      obtain ⟨e, he⟩ := hfail 0 (Nat.succ_pos fuel)
      rw [Nat.add_zero] at he
      rcases Nat.eq_zero_or_pos fuel with hf | hf
      · subst hf
        simp [retryLoop, he]
      · have hrec := ih (attempt + 1) (Except.error e) hf
          (fun i hi => by
            obtain ⟨e2, he2⟩ := hfail (i + 1) (Nat.succ_lt_succ hi)
            refine ⟨e2, ?_⟩
            have h3 : attempt + 1 + i = attempt + (i + 1) := by omega
            rw [h3]; exact he2)
        have h4 : attempt + 1 + fuel - 1 = attempt + (fuel + 1) - 1 := by omega
        rw [h4] at hrec
        simp [retryLoop, he, hrec]

/-- A successful loop result is either the initial value of the Go result
variables (the loop body never ran) or the value of some attempt. -/
lemma retryLoop_ok_mem {A : Type} (op : Nat → Except String A) :
    ∀ (fuel attempt : Nat) (last : Except String A) (v : A),
      (retryLoop op attempt fuel last).1 = Except.ok v →
      last = Except.ok v ∨ ∃ i, op i = Except.ok v := by
  intro fuel
  induction fuel with
  | zero =>
      intro attempt last v h
      exact Or.inl (by simpa [retryLoop] using h)
  | succ fuel ih =>
      intro attempt last v h
      rcases hop : op attempt with e | a
      · simp only [retryLoop, hop] at h
        rcases ih (attempt + 1) (Except.error e) v h with h2 | h2
        · exact absurd h2 (by simp)
        · exact Or.inr h2
      · simp only [retryLoop, hop] at h
        have hv : a = v := by simpa using h
        exact Or.inr ⟨attempt, by rw [hop, hv]⟩

/-- C2: for both retry wrappers with maxRetries = r ≥ 0, an operation that
fails on its first k attempts and succeeds on attempt k+1 (k ≤ r) yields
that success after exactly k+1 invocations, and an operation that fails on
every attempt is invoked exactly r+1 times with the final failure
returned. -/
theorem retry_wrapper_semantics (r : Int) (hr : 0 ≤ r) (k : Nat) :
    (∀ (check : Nat → Except String (Bool × Int)) (v : Bool × Int),
        k ≤ r.toNat → (∀ i, i < k → ∃ e, check i = Except.error e) →
        check k = Except.ok v →
        checkRepositoryWithRetries check r = (Except.ok v, k + 1)) ∧
    (∀ check : Nat → Except String (Bool × Int),
        (∀ i, ∃ e, check i = Except.error e) →
        checkRepositoryWithRetries check r = (check r.toNat, r.toNat + 1)) ∧
    (∀ syncOp : Nat → Except String Unit,
        k ≤ r.toNat → (∀ i, i < k → ∃ e, syncOp i = Except.error e) →
        syncOp k = Except.ok () →
        syncRepositoryWithRetries syncOp r = (Except.ok (), k + 1)) ∧
    (∀ syncOp : Nat → Except String Unit,
        (∀ i, ∃ e, syncOp i = Except.error e) →
        syncRepositoryWithRetries syncOp r = (syncOp r.toNat, r.toNat + 1)) := by
  have hfuel : retryFuel r = r.toNat + 1 := by
    simp [retryFuel, not_lt.mpr hr]
  refine ⟨fun check v hk hfail hok => ?_, fun check hfail => ?_,
          fun syncOp hk hfail hok => ?_, fun syncOp hfail => ?_⟩
  · unfold checkRepositoryWithRetries
    rw [hfuel]
    exact retryLoop_succeeds check v k 0 (r.toNat + 1) _ (by omega)
      (fun i hi => by simpa using hfail i hi) (by simpa using hok)
  · unfold checkRepositoryWithRetries
    rw [hfuel]
    have h := retryLoop_all_fail check (r.toNat + 1) 0 (Except.ok (false, 0))
      (Nat.succ_pos _) (fun i _ => by simpa using hfail i)
    simpa using h
  · unfold syncRepositoryWithRetries
    rw [hfuel]
    exact retryLoop_succeeds syncOp () k 0 (r.toNat + 1) _ (by omega)
      (fun i hi => by simpa using hfail i hi) (by simpa using hok)
  · unfold syncRepositoryWithRetries
    rw [hfuel]
    have h := retryLoop_all_fail syncOp (r.toNat + 1) 0 (Except.ok ())
      (Nat.succ_pos _) (fun i _ => by simpa using hfail i)
    simpa using h

/-- A drift check that fails once then succeeds. -/
def checkFlaky : Nat → Except String (Bool × Int) := fun i =>
  if i == 0 then .error "rate limited" else .ok (true, 5)

/-- A drift check that fails on every attempt. -/
def checkAlwaysFails : Nat → Except String (Bool × Int) := fun _ => .error "502"

/-- Witness for `retry_wrapper_semantics` with r = 2: the flaky check
succeeds on the second invocation, the always-failing check is invoked
three times. -/
theorem retry_wrapper_semantics_witness :
    checkRepositoryWithRetries checkFlaky 2 = (Except.ok (true, 5), 2) ∧
    checkRepositoryWithRetries checkAlwaysFails 2 = (Except.error "502", 3) := by
  constructor
  · exact (retry_wrapper_semantics 2 (by decide) 1).1 checkFlaky (true, 5) (by decide)
      (fun i hi => by
        have h0 : i = 0 := by omega
        subst h0
        exact ⟨"rate limited", rfl⟩)
      rfl
  · exact (retry_wrapper_semantics 2 (by decide) 1).2.1 checkAlwaysFails
      (fun i => ⟨"502", rfl⟩)

/-- A sync operation that fails on every attempt. -/
def syncFailW : Nat → Except String Unit := fun _ => .error "409 conflict"

/-- C9: a negative maxRetries makes both wrappers skip the loop entirely:
the operation is invoked zero times, `checkRepositoryWithRetries` reports
the success (false, 0) (a nil error with zero values), and the fork is
classified up-to-date without any remote comparison being made. -/
theorem negative_max_retries (r : Int) (hr : r < 0)
    (check : Nat → Except String (Bool × Int)) (syncOp : Nat → Except String Unit)
    (dryRun : Bool) (fork : Repository) :
    checkRepositoryWithRetries check r = (Except.ok (false, 0), 0) ∧
    syncRepositoryWithRetries syncOp r = (Except.ok (), 0) ∧
    (processFork dryRun check syncOp r fork).1 =
      { name := fork.name, status := "up_to_date", errorMsg := "", behind := 0 } := by
  have hfuel : retryFuel r = 0 := by simp [retryFuel, hr]
  have h1 : checkRepositoryWithRetries check r = (Except.ok (false, 0), 0) := by
    unfold checkRepositoryWithRetries; rw [hfuel]; rfl
  have h2 : (checkRepositoryWithRetries check r).1 = Except.ok (false, 0) := by
    rw [h1]
  refine ⟨h1, ?_, ?_⟩
  · unfold syncRepositoryWithRetries; rw [hfuel]; rfl
  · simp [processFork, h2]

/-- Witness for `negative_max_retries` at r = -1. -/
theorem negative_max_retries_witness :
    checkRepositoryWithRetries checkAlwaysFails (-1) = (Except.ok (false, 0), 0) ∧
    syncRepositoryWithRetries syncFailW (-1) = (Except.ok (), 0) ∧
    (processFork false checkAlwaysFails syncFailW (-1) forkW).1 =
      { name := forkW.name, status := "up_to_date", errorMsg := "", behind := 0 } :=
  negative_max_retries (-1) (by decide) checkAlwaysFails syncFailW false forkW

/-! Theorems about the per-fork sync pipeline. -/

/-- The is-behind flag of a successful drift check is the behind count
compared against zero. -/
lemma isBehindUpstream_ok_flag (cmp : String → String → Except String Comparison)
    (repo : Repository) (b : Bool) (n : Int)
    (h : (IsRepositoryBehindUpstream cmp repo).1 = Except.ok (b, n)) :
    b = decide (0 < n) := by
  unfold IsRepositoryBehindUpstream at h
  rcases hmain : cmp (repo.parentOwner ++ ":" ++ "main") "main" with e | c
  · rcases hmaster : cmp (repo.parentOwner ++ ":" ++ "master") "master" with e2 | c
    · simp [hmain, hmaster] at h
    · simp only [hmain, hmaster] at h
      obtain ⟨hb, hn⟩ := by simpa using h
      subst hn; exact hb.symm
  · simp only [hmain] at h
    obtain ⟨hb, hn⟩ := by simpa using h
    subst hn; exact hb.symm

/-- C4: when dry-run is active and the drift check (made through the real
drift detector) succeeds with a positive behind count, the recorded
outcome is would-sync carrying that count, and the sync operation is
invoked zero times. -/
theorem dry_run_never_syncs
    (cmp : Nat → String → String → Except String Comparison)
    (check : Nat → Except String (Bool × Int)) (syncOp : Nat → Except String Unit)
    (r : Int) (fork : Repository) (b : Bool) (n : Int)
    (hcheck : ∀ i, check i = (IsRepositoryBehindUpstream (cmp i) fork).1)
    (hok : (checkRepositoryWithRetries check r).1 = Except.ok (b, n))
    (hpos : 0 < n) :
    processFork true check syncOp r fork =
      ({ name := fork.name, status := "would_sync", errorMsg := "", behind := n }, 0) := by
  have hmem := retryLoop_ok_mem check (retryFuel r) 0 (Except.ok (false, 0)) (b, n) hok
  have hb : b = true := by
    rcases hmem with hd | ⟨i, hi⟩
    · exfalso
      have hfn : false = b ∧ (0 : Int) = n := by simpa using hd
      obtain ⟨_, h0⟩ := hfn
      omega
    · have hflag := isBehindUpstream_ok_flag (cmp i) fork b n (by rw [← hcheck i]; exact hi)
      rw [hflag]
      exact decide_eq_true hpos
  subst hb
  simp [processFork, hok]

/-- A comparison endpoint that always reports 4 commits behind, and the
drift check built from it. -/
def cmpBehind : Nat → String → String → Except String Comparison :=
  fun _ _ _ => .ok { aheadBy := 0, behindBy := 4 }

/-- The drift check of `forkW` against `cmpBehind`. -/
def checkBehind : Nat → Except String (Bool × Int) :=
  fun i => (IsRepositoryBehindUpstream (cmpBehind i) forkW).1

/-- Witness for `dry_run_never_syncs` at a concrete behind-by-4 fork. -/
theorem dry_run_never_syncs_witness :
    processFork true checkBehind syncFailW 2 forkW =
      ({ name := forkW.name, status := "would_sync", errorMsg := "", behind := 4 }, 0) :=
  dry_run_never_syncs cmpBehind checkBehind syncFailW 2 forkW true 4
    (fun i => rfl) rfl (by decide)

/-! Theorems about the ci-check command. -/

/-- Every gateway call the drift detector issues is a ref comparison. -/
lemma isBehindUpstream_calls_compare (cmp : String → String → Except String Comparison)
    (repo : Repository) :
    ∀ c ∈ (IsRepositoryBehindUpstream cmp repo).2,
      ∃ bb hh, c = GatewayCall.compare bb hh := by
  intro c hc
  unfold IsRepositoryBehindUpstream at hc
  rcases hmain : cmp (repo.parentOwner ++ ":" ++ "main") "main" with e | co
  · rcases hmaster : cmp (repo.parentOwner ++ ":" ++ "master") "master" with e2 | co
    · simp [hmain, hmaster] at hc
      rcases hc with h | h <;> exact ⟨_, _, h⟩
    · simp [hmain, hmaster] at hc
      rcases hc with h | h <;> exact ⟨_, _, h⟩
  · simp [hmain] at hc
    exact ⟨_, _, hc⟩

/-- The gateway calls of one ci-check worker are those of its drift
check. -/
lemma ciProcessFork_calls (cmp : String → String → Except String Comparison)
    (fork : Repository) :
    (ciProcessFork cmp fork).2 = (IsRepositoryBehindUpstream cmp fork).2 := by
  unfold ciProcessFork
  rcases h : IsRepositoryBehindUpstream cmp fork with ⟨res, calls⟩
  rcases res with e | v
  · simp [h]
  · rcases v with ⟨bh, bb⟩
    simp [h]

/-- C5: the ci-check pass issues no merge-upstream call at all (it only
performs drift detection), and after a completed pass the process exit
code is non-zero exactly when the fail-on-outdated flag is set and at
least one fork landed in the behind partition — error outcomes alone never
make it non-zero. -/
theorem ci_check_exit_policy (failOnOutdated : Bool)
    (cmp : Repository → String → String → Except String Comparison)
    (forks : List Repository) (order : List RepoStatus) (t : Nat) :
    (∀ branch,
        GatewayCall.mergeUpstream branch ∉ (ciCheckRun failOnOutdated cmp forks order t).2.2) ∧
    ((ciCheckRun failOnOutdated cmp forks order t).2.1 ≠ 0 ↔
      failOnOutdated = true ∧
      (ciCheckRun failOnOutdated cmp forks order t).1.behindRepos ≠ []) := by
  constructor
  · intro branch hmem
    simp only [ciCheckRun, List.mem_flatten, List.mem_map] at hmem
    obtain ⟨l, ⟨f, _, hfl⟩, hcl⟩ := hmem
    rw [← hfl, ciProcessFork_calls] at hcl
    obtain ⟨bb, hh, habs⟩ := isBehindUpstream_calls_compare (cmp f) f _ hcl
    exact GatewayCall.noConfusion habs
  · simp only [ciCheckRun]
    have h1 : ∀ c : CICheckResult, (ciFinalize c).totalBehind = c.behindRepos.length :=
      fun c => rfl
    have h2 : ∀ c : CICheckResult, (ciFinalize c).behindRepos = c.behindRepos :=
      fun c => rfl
    rw [h1, h2]
    by_cases hf : failOnOutdated <;>
      by_cases hb : (order.foldl ciAddResult (ciResultInit t)).behindRepos = [] <;>
        simp [hf, hb, List.length_pos]

/-- The status one behind-by-4 fork contributes to the ci-check drain. -/
def stBehindW : RepoStatus :=
  { name := "tools", isBehind := true, behindBy := 4, error := "" }

/-- Witness for `ci_check_exit_policy`: a pass over one behind fork with
the fail flag set issues no merge call and exits non-zero. -/
theorem ci_check_exit_policy_witness :
    GatewayCall.mergeUpstream "main" ∉
      (ciCheckRun true (fun _ => cmpBehind 0) [forkW] [stBehindW] 0).2.2 ∧
    (ciCheckRun true (fun _ => cmpBehind 0) [forkW] [stBehindW] 0).2.1 ≠ 0 :=
  ⟨(ci_check_exit_policy true (fun _ => cmpBehind 0) [forkW] [stBehindW] 0).1 "main",
   (ci_check_exit_policy true (fun _ => cmpBehind 0) [forkW] [stBehindW] 0).2.mpr
     ⟨rfl, by decide⟩⟩

/-! Theorems about the run summary of the sync command. -/

/-- Routing one result into the summary leaves the timestamp unchanged. -/
lemma addResult_timestamp (s : SyncSummary) (r : SyncResult) :
    (addResult s r).timestamp = s.timestamp := by
  unfold addResult
  split_ifs <;> rfl

/-- Draining the result channel leaves the timestamp unchanged. -/
lemma drain_timestamp (rs : List SyncResult) :
    ∀ s, (drainResults s rs).timestamp = s.timestamp := by
  induction rs with
  | nil => intro s; rfl
  | cons r rs ih =>
      intro s
      have h : drainResults s (r :: rs) = drainResults (addResult s r) rs := rfl
      rw [h, ih, addResult_timestamp]

/-- C7 (amended): the summary timestamp is stamped when the summary is
created, at the start of the orchestration pass; it is untouched by the
drain and therefore precedes (is strictly smaller than the instant of)
every per-fork outcome, rather than following them. -/
theorem summary_timestamp_at_creation (t0 : Nat) (arrivals : List SyncResult) :
    (syncPassTrace t0 arrivals).1.timestamp = t0 ∧
    ∀ p ∈ (syncPassTrace t0 arrivals).2,
      (syncPassTrace t0 arrivals).1.timestamp < p.1 := by
  have ht : (syncPassTrace t0 arrivals).1.timestamp = t0 := by
    simp [syncPassTrace, drain_timestamp, summaryInit]
  refine ⟨ht, fun p hp => ?_⟩
  rw [ht]
  simp only [syncPassTrace, List.mem_map] at hp
  obtain ⟨q, hq, rfl⟩ := hp
  omega

/-- An up-to-date result used in the timestamp counterexample. -/
def resUpToDateW : SyncResult :=
  { name := "tools", status := "up_to_date", errorMsg := "", behind := 0 }

/-- Counterexample to C7 as stated: in a pass over one fork, the summary
timestamp (stamped at creation, instant 0) does not follow the per-fork
outcome emitted at instant 1. -/
theorem summary_timestamp_cex :
    ¬ ∀ p ∈ (syncPassTrace 0 [resUpToDateW]).2,
        p.1 ≤ (syncPassTrace 0 [resUpToDateW]).1.timestamp := by
  decide

/-- Witness for `summary_timestamp_at_creation` at a one-fork pass. -/
theorem summary_timestamp_witness :
    (syncPassTrace 0 [resUpToDateW]).1.timestamp < 1 :=
  (summary_timestamp_at_creation 0 [resUpToDateW]).2 (1, resUpToDateW) (by decide)

/-- Every branch of the worker body produces one of the four statuses of
the drain switch, and names the result after the fork. -/
lemma processFork_shape (dryRun : Bool) (check : Nat → Except String (Bool × Int))
    (syncOp : Nat → Except String Unit) (r : Int) (fork : Repository) :
    ((processFork dryRun check syncOp r fork).1.status = "up_to_date" ∨
     (processFork dryRun check syncOp r fork).1.status = "would_sync" ∨
     (processFork dryRun check syncOp r fork).1.status = "synced" ∨
     (processFork dryRun check syncOp r fork).1.status = "error") ∧
    (processFork dryRun check syncOp r fork).1.name = fork.name := by
  rcases h : (checkRepositoryWithRetries check r).1 with e | ⟨b, n⟩ <;>
    rcases hs : syncRepositoryWithRetries syncOp r with ⟨res, m⟩
  · simp [processFork, h]
  · rcases res with e2 | u <;> rcases b <;> by_cases hd : dryRun <;>
      simp [processFork, h, hs, hd]

/-- Routing one result adds its name to the up-to-date partition exactly
when its status is up_to_date. -/
lemma addResult_upToDate (s : SyncSummary) (r : SyncResult) :
    (addResult s r).upToDate =
      s.upToDate ++ if r.status == "up_to_date" then [r.name] else [] := by
  unfold addResult
  split_ifs <;> simp_all

/-- Routing one result adds its name to the synced partition exactly when
its status is would_sync or synced. -/
lemma addResult_synced (s : SyncSummary) (r : SyncResult) :
    (addResult s r).synced =
      s.synced ++ if r.status == "would_sync" || r.status == "synced"
                  then [r.name] else [] := by
  unfold addResult
  split_ifs <;> simp_all

/-- Routing one result touches the error map exactly when its status is
error. -/
lemma addResult_errors (s : SyncSummary) (r : SyncResult) :
    (addResult s r).errors =
      if r.status == "error" then mapInsert s.errors r.name r.errorMsg
      else s.errors := by
  unfold addResult
  split_ifs <;> simp_all

/-- Updating a map at an absent key appends the binding. -/
lemma mapInsert_of_not_mem (m : List (String × String)) (k v : String)
    (h : ∀ p ∈ m, p.1 ≠ k) : mapInsert m k v = m ++ [(k, v)] := by
  have hany : (m.any fun p => p.1 == k) = false := by
    rw [List.any_eq_false]
    intro p hp
    simpa using h p hp
  simp [mapInsert, hany]

/-- The up-to-date partition after the drain: the initial contents
followed by the names of the up_to_date results, in arrival order. -/
lemma drain_upToDate (rs : List SyncResult) :
    ∀ s, (drainResults s rs).upToDate =
      s.upToDate ++ (rs.filter fun x => x.status == "up_to_date").map SyncResult.name := by
  induction rs with
  | nil => intro s; simp [drainResults]
  | cons r rs ih =>
      intro s
      rw [show drainResults s (r :: rs) = drainResults (addResult s r) rs from rfl, ih,
          addResult_upToDate]
      by_cases h : r.status == "up_to_date" <;>
        simp [List.filter_cons, h]

/-- The synced partition after the drain: the initial contents followed by
the names of the would_sync and synced results, in arrival order. -/
lemma drain_synced (rs : List SyncResult) :
    ∀ s, (drainResults s rs).synced =
      s.synced ++ (rs.filter fun x => x.status == "would_sync" || x.status == "synced").map
        SyncResult.name := by
  induction rs with
  | nil => intro s; simp [drainResults]
  | cons r rs ih =>
      intro s
      rw [show drainResults s (r :: rs) = drainResults (addResult s r) rs from rfl, ih,
          addResult_synced]
      by_cases h : (r.status == "would_sync" || r.status == "synced") = true <;>
        simp [List.filter_cons, h]

/-- The error map after the drain, when the arriving error names collide
neither with each other nor with the keys already present: the initial
bindings followed by one binding per error result, in arrival order. -/
lemma drain_errors (rs : List SyncResult) :
    ∀ s, (∀ x ∈ rs, x.status = "error" → ∀ p ∈ s.errors, p.1 ≠ x.name) →
      ((rs.filter fun x => x.status == "error").map SyncResult.name).Nodup →
      (drainResults s rs).errors =
        s.errors ++ (rs.filter fun x => x.status == "error").map
          (fun x => (x.name, x.errorMsg)) := by
  induction rs with
  | nil => intro s _ _; simp [drainResults]
  | cons r rs ih =>
      intro s habsent hnd
      rw [show drainResults s (r :: rs) = drainResults (addResult s r) rs from rfl]
      by_cases h : r.status = "error"
      · have hins : (addResult s r).errors = s.errors ++ [(r.name, r.errorMsg)] := by
          rw [addResult_errors, if_pos (by simp [h])]
          exact mapInsert_of_not_mem _ _ _ (habsent r (List.mem_cons_self r rs) h)
        have hfc : (r :: rs).filter (fun x => x.status == "error") =
            r :: rs.filter (fun x => x.status == "error") := by
          simp [List.filter_cons, h]
        rw [hfc] at hnd
        simp only [List.map_cons, List.nodup_cons] at hnd
        have hrec := ih (addResult s r)
          (fun x hx hxe p hp => by
            rw [hins] at hp
            rcases List.mem_append.mp hp with hp | hp
            · exact habsent x (List.mem_cons_of_mem r hx) hxe p hp
            · have hpr : p = (r.name, r.errorMsg) := by simpa using hp
              subst hpr
              intro hcontra
              exact hnd.1 (by
                have hxn : r.name = x.name := hcontra
                rw [hxn]
                exact List.mem_map_of_mem SyncResult.name
                  (List.mem_filter.mpr ⟨hx, by simp [hxe]⟩)))
          hnd.2
        rw [hrec, hins, hfc]
        simp

      · have hkeep : (addResult s r).errors = s.errors := by
          rw [addResult_errors, if_neg (by simp [h])]
        have hfc : (r :: rs).filter (fun x => x.status == "error") =
            rs.filter (fun x => x.status == "error") := by
          simp [List.filter_cons, h]
        rw [hfc] at hnd
        have hrec := ih (addResult s r)
          (fun x hx hxe p hp => by
            rw [hkeep] at hp
            exact habsent x (List.mem_cons_of_mem r hx) hxe p hp)
          hnd
        rw [hrec, hkeep, hfc]

/-- The four statuses partition the results: the three drain partitions
count every result exactly once. -/
lemma count_partition (rs : List SyncResult)
    (h4 : ∀ x ∈ rs, x.status = "up_to_date" ∨ x.status = "would_sync" ∨
          x.status = "synced" ∨ x.status = "error") :
    (rs.filter fun x => x.status == "would_sync" || x.status == "synced").length +
    (rs.filter fun x => x.status == "up_to_date").length +
    (rs.filter fun x => x.status == "error").length = rs.length := by
  induction rs with
  | nil => simp
  | cons r rs ih =>
      have hr := h4 r (List.mem_cons_self r rs)
      have hih := ih (fun x hx => h4 x (List.mem_cons_of_mem r hx))
      rcases hr with h | h | h | h <;>
        simp [List.filter_cons, h] <;> omega

/-- C1 (amended): over any arrival order of the per-fork outcomes, when
the discovered forks have pairwise distinct names, every fork yields
exactly one outcome and the three summary partitions are pairwise
disjoint with total cardinality N. -/
theorem sync_summary_partition
    (dryRun : Bool) (check : Repository → Nat → Except String (Bool × Int))
    (syncOp : Repository → Nat → Except String Unit) (r : Int)
    (forks : List Repository) (rs : List SyncResult) (t : Nat)
    (hperm : rs.Perm (syncOutcomes dryRun check syncOp r forks))
    (hnodup : (forks.map Repository.name).Nodup) :
    rs.length = forks.length ∧
    (drainResults (summaryInit t) rs).synced.length +
      (drainResults (summaryInit t) rs).upToDate.length +
      (drainResults (summaryInit t) rs).errors.length = forks.length ∧
    (∀ x ∈ (drainResults (summaryInit t) rs).synced,
        x ∉ (drainResults (summaryInit t) rs).upToDate) ∧
    (∀ x ∈ (drainResults (summaryInit t) rs).synced,
        x ∉ (drainResults (summaryInit t) rs).errors.map Prod.fst) ∧
    (∀ x ∈ (drainResults (summaryInit t) rs).upToDate,
        x ∉ (drainResults (summaryInit t) rs).errors.map Prod.fst) := by
  have hmemPF : ∀ x ∈ rs, ∃ f, f ∈ forks ∧
      x = (processFork dryRun (check f) (syncOp f) r f).1 := by
    intro x hx
    have hx2 := hperm.mem_iff.mp hx
    simp only [syncOutcomes, List.mem_map] at hx2
    obtain ⟨f, hf, hfx⟩ := hx2
    exact ⟨f, hf, hfx.symm⟩
  have h4 : ∀ x ∈ rs, x.status = "up_to_date" ∨ x.status = "would_sync" ∨
      x.status = "synced" ∨ x.status = "error" := by
    intro x hx
    obtain ⟨f, _, rfl⟩ := hmemPF x hx
    exact (processFork_shape dryRun (check f) (syncOp f) r f).1
  have hlen : rs.length = forks.length := by
    rw [hperm.length_eq]
    simp [syncOutcomes]
  have hnames : (rs.map SyncResult.name).Nodup := by
    have hmapeq : (syncOutcomes dryRun check syncOp r forks).map SyncResult.name =
        forks.map Repository.name := by
      simp only [syncOutcomes, List.map_map]
      exact List.map_congr_left fun f _ =>
        (processFork_shape dryRun (check f) (syncOp f) r f).2
    have hp2 := hperm.map SyncResult.name
    rw [hmapeq] at hp2
    exact hp2.nodup_iff.mpr hnodup
  have hndErr : ((rs.filter fun x => x.status == "error").map SyncResult.name).Nodup := by
    have hsub : ((rs.filter fun x => x.status == "error").map SyncResult.name).Sublist
        (rs.map SyncResult.name) := (List.filter_sublist rs).map SyncResult.name
    exact hnames.sublist hsub
  have hU : (drainResults (summaryInit t) rs).upToDate =
      (rs.filter fun x => x.status == "up_to_date").map SyncResult.name := by
    rw [drain_upToDate]
    simp [summaryInit]
  have hS : (drainResults (summaryInit t) rs).synced =
      (rs.filter fun x => x.status == "would_sync" || x.status == "synced").map
        SyncResult.name := by
    rw [drain_synced]
    simp [summaryInit]
  have hE : (drainResults (summaryInit t) rs).errors =
      (rs.filter fun x => x.status == "error").map (fun x => (x.name, x.errorMsg)) := by
    rw [drain_errors rs (summaryInit t)
      (fun x _ _ p hp => absurd hp (by simp [summaryInit])) hndErr]
    simp [summaryInit]
  have hinj := List.inj_on_of_nodup_map hnames
  refine ⟨hlen, ?_, ?_, ?_, ?_⟩
  · rw [hS, hU, hE]
    simp only [List.length_map]
    rw [count_partition rs h4]
    exact hlen
  · intro x hxS hxU
    rw [hS] at hxS
    rw [hU] at hxU
    obtain ⟨r1, hr1f, hr1n⟩ := List.mem_map.mp hxS
    obtain ⟨r2, hr2f, hr2n⟩ := List.mem_map.mp hxU
    have hr1 := List.mem_filter.mp hr1f
    have hr2 := List.mem_filter.mp hr2f
    have heq : r1 = r2 := hinj hr1.1 hr2.1 (by rw [hr1n, hr2n])
    have h1 := hr1.2
    have h2 := hr2.2
    rw [heq] at h1
    simp only [Bool.or_eq_true, beq_iff_eq] at h1 h2
    rcases h1 with h1 | h1 <;> rw [h1] at h2 <;> exact absurd h2 (by decide)
  · intro x hxS hxE
    rw [hS] at hxS
    rw [hE] at hxE
    obtain ⟨r1, hr1f, hr1n⟩ := List.mem_map.mp hxS
    obtain ⟨p, hpmem, hpx⟩ := List.mem_map.mp hxE
    obtain ⟨r2, hr2f, hr2p⟩ := List.mem_map.mp hpmem
    have hr1 := List.mem_filter.mp hr1f
    have hr2 := List.mem_filter.mp hr2f
    have hxn : r2.name = x := by rw [← hr2p] at hpx; exact hpx
    have heq : r1 = r2 := hinj hr1.1 hr2.1 (by rw [hr1n, hxn])
    have h1 := hr1.2
    have h2 := hr2.2
    rw [heq] at h1
    simp only [Bool.or_eq_true, beq_iff_eq] at h1 h2
    rcases h1 with h1 | h1 <;> rw [h1] at h2 <;> exact absurd h2 (by decide)
  · intro x hxU hxE
    rw [hU] at hxU
    rw [hE] at hxE
    obtain ⟨r1, hr1f, hr1n⟩ := List.mem_map.mp hxU
    obtain ⟨p, hpmem, hpx⟩ := List.mem_map.mp hxE
    obtain ⟨r2, hr2f, hr2p⟩ := List.mem_map.mp hpmem
    have hr1 := List.mem_filter.mp hr1f
    have hr2 := List.mem_filter.mp hr2f
    have hxn : r2.name = x := by rw [← hr2p] at hpx; exact hpx
    have heq : r1 = r2 := hinj hr1.1 hr2.1 (by rw [hr1n, hxn])
    have h1 := hr1.2
    have h2 := hr2.2
    rw [heq] at h1
    simp only [beq_iff_eq] at h1 h2
    rw [h1] at h2
    exact absurd h2 (by decide)

/-- A discovered fork of an organization sharing the name of `forkW`:
repository listing spans owner, collaborator and organization-member
repositories, so two discovered forks can carry the same name. -/
def forkDupB : Repository :=
  { owner := "orgx", name := "tools", fullName := "orgx/tools",
    parentOwner := "up", parentName := "tools" }

/-- Counterexample to C1 as stated: two discovered forks sharing the name
"tools" whose drift checks both fail yield one outcome each (N = 2), yet
the name-keyed error map retains a single entry, so the three partitions
total 1, not N. -/
theorem sync_summary_partition_cex :
    (syncOutcomes false (fun _ _ => Except.error "404 Not Found")
        (fun _ _ => Except.ok ()) 2 [forkW, forkDupB]).length = 2 ∧
    (drainResults (summaryInit 0) (syncOutcomes false
          (fun _ _ => Except.error "404 Not Found")
          (fun _ _ => Except.ok ()) 2 [forkW, forkDupB])).synced.length +
      (drainResults (summaryInit 0) (syncOutcomes false
          (fun _ _ => Except.error "404 Not Found")
          (fun _ _ => Except.ok ()) 2 [forkW, forkDupB])).upToDate.length +
      (drainResults (summaryInit 0) (syncOutcomes false
          (fun _ _ => Except.error "404 Not Found")
          (fun _ _ => Except.ok ()) 2 [forkW, forkDupB])).errors.length = 1 := by
  decide

/-- A second discovered fork with a name distinct from `forkW`. -/
def forkW2 : Repository :=
  { owner := "alice", name := "widgets", fullName := "alice/widgets",
    parentOwner := "up2", parentName := "widgets" }

/-- Witness for `sync_summary_partition` over two distinct-name forks. -/
theorem sync_summary_partition_witness :
    (drainResults (summaryInit 0) (syncOutcomes false
          (fun _ _ => Except.error "404 Not Found")
          (fun _ _ => Except.ok ()) 2 [forkW, forkW2])).synced.length +
      (drainResults (summaryInit 0) (syncOutcomes false
          (fun _ _ => Except.error "404 Not Found")
          (fun _ _ => Except.ok ()) 2 [forkW, forkW2])).upToDate.length +
      (drainResults (summaryInit 0) (syncOutcomes false
          (fun _ _ => Except.error "404 Not Found")
          (fun _ _ => Except.ok ()) 2 [forkW, forkW2])).errors.length = 2 :=
  (sync_summary_partition false (fun _ _ => Except.error "404 Not Found")
      (fun _ _ => Except.ok ()) 2 [forkW, forkW2]
      (syncOutcomes false (fun _ _ => Except.error "404 Not Found")
        (fun _ _ => Except.ok ()) 2 [forkW, forkW2]) 0
      (List.Perm.refl _) (by decide)).2.1

end Furca
